import Mathlib

/-!
# MediaCore API — verification of the capability / telemetry core

A shallow embedding of the MediaCore API server (`src/server.js`, the
`checkAdminAuth` middleware, and the capability / telemetry middleware)
together with proofs of the specified properties.

The repository's `middleware/checkApiKeyPermissions.js` and
`middleware/analyticsTracker.js` modules are not present in the source
tree (only `middleware/index.js` re-exports them and `server.js` calls
them), so the Capability Registry, Key Validator, Telemetry Buffer,
Telemetry Persister and Aggregator are modelled from the specification
(spec.md §4.1–§4.5); each such definition carries a doc comment starting
with `Modelled from the spec:`. Everything else is translated directly
from the JavaScript source.

Conventions: timestamps are `Nat` (milliseconds, except where noted);
JavaScript objects become structures; fallible handlers return `Except`;
the Firestore collections become association lists `List (String × _)`
keyed by document id.
-/

/-! ## Capability Registry (spec §4.1) -/

/-- Modelled from the spec: the closed capability vocabulary of
`middleware/checkApiKeyPermissions.js` (absent from src).  The two read
capabilities appear in the route comments of `server.js`
("Requires: API Key with 'read:media' / 'read:settings' permission");
the write capabilities follow the spec's examples. -/
def available_permissions : List String :=
  ["read:media", "read:settings", "write:media", "write:settings"]

/-- Modelled from the spec: the `read_only` preset. -/
def read_only_preset : List String := ["read:media", "read:settings"]

/-- Modelled from the spec: the `full_access` preset. -/
def full_access_preset : List String := available_permissions

/-- Modelled from the spec: normalization applied to requested
capabilities before duplicate detection ("duplicates after
normalization"): character-wise lowercasing, i.e. JavaScript
`toLowerCase()`. -/
def normalizeCapability (s : String) : String := ⟨s.data.map Char.toLower⟩

/-- Result shape of `validatePermissions`
(`{valid, message, allowed-vocabulary}` per spec §4.1, plus the list of
offending elements it reports). -/
structure ValidationResult where
  isValid : Bool
  message : String
  offending : List String
  allowedVocabulary : List String
deriving Repr, DecidableEq

/-- Modelled from the spec: `validatePermissions` of
`middleware/checkApiKeyPermissions.js` (absent from src).  Rejects if
the requested list is empty, contains any string outside the closed
vocabulary, or contains duplicates after normalization (spec §4.1);
rejections report the offending element(s). -/
def validatePermissions (requested : List String) : ValidationResult :=
  if requested.isEmpty then
    { isValid := false, message := "No permissions provided",
      offending := [], allowedVocabulary := available_permissions }
  else
    let invalid := requested.filter (fun p => !available_permissions.contains p)
    if !invalid.isEmpty then
      { isValid := false, message := "Invalid permissions",
        offending := invalid, allowedVocabulary := available_permissions }
    else
      let normalized := requested.map normalizeCapability
      let dups := normalized.filter (fun p => 1 < normalized.count p)
      if !dups.isEmpty then
        { isValid := false, message := "Duplicate permissions",
          offending := dups.dedup, allowedVocabulary := available_permissions }
      else
        { isValid := true, message := "OK",
          offending := [], allowedVocabulary := available_permissions }

/-- Modelled from the spec: `getPermissionsByAccessType` of
`middleware/checkApiKeyPermissions.js` (absent from src): preset
capabilities per access tier. -/
def getPermissionsByAccessType (accessType : String) : List String :=
  if accessType = "read_only" then read_only_preset
  else if accessType = "full_access" then full_access_preset
  else []

/-! ## API key records (server.js `keyData`, lines 353–366) -/

/-- The persisted API key document created by `POST /admin/generate-key`
(`server.js` lines 353–366) plus the two fields added by soft revocation
(`server.js` lines 461–465). -/
structure KeyRecord where
  key : String
  name : String
  description : String
  accessType : String
  permissions : List String
  isActive : Bool
  createdBy : String
  createdByEmail : String
  createdAt : Nat
  expiresAt : Option Nat
  lastUsedAt : Option Nat
  usageCount : Nat
  deactivatedAt : Option Nat := none
  deactivatedBy : Option String := none
deriving Repr, DecidableEq

/-! ## Key Validator (spec §4.2) -/

/-- Authorization failures of the Key Validator (spec §7 taxonomy). -/
inductive AuthError where
  | Unauthorized (message : String)
  | Forbidden (message : String)
deriving Repr, DecidableEq

/-- Modelled from the spec: the baseline "read" capability that a route
invoking the guard with no explicit capability argument is treated as
requiring (spec §4.2); it is present in every preset. -/
def baselineCapability : String := "read:media"

/-- Holds iff the record's expiry timestamp is ≤ `now`
(spec §4.2: "expiry timestamp ≤ now → Unauthorized"). -/
def keyExpired (r : KeyRecord) (now : Nat) : Bool :=
  match r.expiresAt with
  | some e => decide (e ≤ now)
  | none => false

/-- Modelled from the spec: the Key Validator
(`middleware/checkApiKeyPermissions.js`, absent from src), spec §4.2.
`required = none` models a route that invokes the guard with no explicit
capability argument (`checkApiKeyPermissions()` at `server.js` lines
184, 228, 263); per spec §4.2 it is treated as requiring the baseline
"read" capability.  `presented` is the key string from the request
header (`none` when no key is presented); `store` is the key-record
collection; `now` is the current time. -/
def checkApiKeyPermissions (required : Option String) (presented : Option String)
    (store : List KeyRecord) (now : Nat) : Except AuthError KeyRecord :=
  let cap := required.getD baselineCapability
  match presented with
  | none => .error (.Unauthorized "API key required")
  | some k =>
    match store.find? (fun r => r.key == k) with
    | none => .error (.Unauthorized "invalid API key")
    | some r =>
      if !r.isActive || keyExpired r now then
        .error (.Unauthorized "key inactive or expired")
      else if cap ∈ r.permissions then
        .ok r
      else
        .error (.Forbidden "insufficient capability")

/-- Holds iff the validator denied the request. -/
def isDenied (res : Except AuthError KeyRecord) : Bool :=
  match res with
  | .error _ => true
  | .ok _ => false

/-! ## Key generation (`POST /admin/generate-key`, server.js lines 296–390) -/

/-- The valid access types (`server.js` line 315). -/
def validAccessTypes : List String := ["read_only", "full_access", "custom"]

/-- One day in milliseconds; `expiresAt.setDate(getDate() + expiresInDays)`
advances the timestamp by `expiresInDays` days. -/
def msPerDay : Nat := 86400000

/-- The `POST /admin/generate-key` handler (`server.js` lines 296–390).
`name` is the requested display name (the empty string models a missing
name, which is falsy in JavaScript); `expiresInDays` is the optional
requested lifetime (an `Int`, since the handler only checks
`expiresInDays && expiresInDays > 0`); `uid`/`email` come from the
authenticated admin; `fresh` is the dash-stripped UUID used to mint the
key string; `now` is the current time.  Returns the stored record or the
400 error message. -/
def generateKey (name accessType : String) (customPermissions : List String)
    (expiresInDays : Option Int) (description uid email fresh : String)
    (now : Nat) : Except String KeyRecord :=
  if name = "" then
    .error "API key name is required"
  else if !(validAccessTypes.contains accessType) then
    .error "Invalid access type"
  else
    let permsResult : Except String (List String) :=
      if accessType = "custom" then
        let validation := validatePermissions customPermissions
        if validation.isValid then .ok customPermissions
        else .error validation.message
      else
        .ok (getPermissionsByAccessType accessType)
    match permsResult with
    | .error e => .error e
    | .ok permissions =>
      let expiresAt : Option Nat :=
        match expiresInDays with
        | some d => if 0 < d then some (now + d.toNat * msPerDay) else none
        | none => none
      .ok {
        key := "mc_" ++ fresh,
        name := name,
        description := description,
        accessType := accessType,
        permissions := permissions,
        isActive := true,
        createdBy := uid,
        createdByEmail := email,
        createdAt := now,
        expiresAt := expiresAt,
        lastUsedAt := none,
        usageCount := 0 }

/-! ## Key listing (`GET /admin/api-keys`, server.js lines 397–434) -/

/-- The last `n` characters of a string (JavaScript `s.slice(-n)`). -/
def lastChars (n : Nat) (s : String) : String :=
  ⟨s.data.drop (s.data.length - n)⟩

/-- One entry of the `GET /admin/api-keys` response (`server.js` lines
403–419): every stored field except the key itself, plus the masked
`keyPreview`. -/
structure KeyListEntry where
  id : String
  name : String
  description : String
  accessType : String
  permissions : List String
  isActive : Bool
  createdAt : Nat
  expiresAt : Option Nat
  lastUsedAt : Option Nat
  usageCount : Nat
  keyPreview : String
deriving Repr, DecidableEq

/-- Builds one list entry from a stored record
(`server.js` lines 403–419): `keyPreview = "mc_****" + key.slice(-8)`. -/
def toListEntry (id : String) (r : KeyRecord) : KeyListEntry :=
  { id := id,
    name := r.name,
    description := r.description,
    accessType := r.accessType,
    permissions := r.permissions,
    isActive := r.isActive,
    createdAt := r.createdAt,
    expiresAt := r.expiresAt,
    lastUsedAt := r.lastUsedAt,
    usageCount := r.usageCount,
    keyPreview := "mc_****" ++ lastChars 8 r.key }

/-- The `GET /admin/api-keys` handler (`server.js` lines 397–434), taking
the `api_keys` snapshot (already ordered by the store) as an association
list of document id to record. -/
def listApiKeys (snapshot : List (String × KeyRecord)) : List KeyListEntry :=
  snapshot.map (fun p => toListEntry p.1 p.2)

/-! ## Key revocation (`DELETE /admin/api-keys/:id`, server.js lines 441–480) -/

/-- Outcome of `DELETE /admin/api-keys/:id`. -/
inductive RevokeOutcome where
  | notFound
  | deleted
  | deactivated
deriving Repr, DecidableEq

/-- The soft-delete update (`server.js` lines 461–465). -/
def deactivateRecord (now : Nat) (uid : String) (r : KeyRecord) : KeyRecord :=
  { r with isActive := false, deactivatedAt := some now, deactivatedBy := some uid }

/-- The `DELETE /admin/api-keys/:id` handler (`server.js` lines
441–480): missing id → 404 Not Found; `hardDelete` → delete the
document; otherwise soft delete (set `isActive := false` and stamp the
deactivation).  Returns the outcome with the updated collection. -/
def revokeKey (apiKeys : List (String × KeyRecord)) (id : String)
    (hardDelete : Bool) (now : Nat) (uid : String) :
    RevokeOutcome × List (String × KeyRecord) :=
  match apiKeys.lookup id with
  | none => (.notFound, apiKeys)
  | some _ =>
    if hardDelete then
      (.deleted, apiKeys.filter (fun p => p.1 != id))
    else
      (.deactivated,
       apiKeys.map (fun p =>
         if p.1 = id then (p.1, deactivateRecord now uid p.2) else p))

/-! ## Telemetry Buffer and Persister (spec §4.3–§4.4) -/

/-- One per-request telemetry observation (spec §3 "Telemetry
Observation"): timestamp, HTTP method, normalized route path, resolved
API-key id (`none` for admin/unauthenticated routes), response status,
and elapsed processing time. -/
structure Observation where
  timestamp : Nat
  method : String
  path : String
  apiKeyId : Option String
  statusCode : Nat
  responseTime : Nat
deriving Repr, DecidableEq

/-- Derived success flag (spec §3: `status < 400`). -/
def obsSuccess (o : Observation) : Bool := decide (o.statusCode < 400)

/-- The in-memory buffer of not-yet-persisted observations, oldest
first. -/
abbrev TelemetryBuffer := List Observation

/-- Modelled from the spec: `record(observation)` of the Telemetry
Buffer (`middleware/analyticsTracker.js`, absent from src), spec §4.3:
appends the observation to the buffer. -/
def record (buf : TelemetryBuffer) (o : Observation) : TelemetryBuffer :=
  buf ++ [o]

/-- Modelled from the spec: `drain()` of the Telemetry Buffer
(`middleware/analyticsTracker.js`, absent from src), spec §4.3:
atomically removes and returns all buffered observations, resetting the
buffer to empty. -/
def drain (buf : TelemetryBuffer) : List Observation × TelemetryBuffer :=
  (buf, [])

/-- Modelled from the spec: one `flush()` cycle of the Telemetry
Persister (`middleware/analyticsTracker.js`, absent from src), spec
§4.4, invoked by `POST /admin/analytics/flush` (`server.js` lines
857–872) and by the interval timer.  The buffer is drained, the batch is
written to the durable store (`storeOk` tells whether that write
succeeds), and observations recorded while the flush is in progress
(`during`) land in the emptied buffer.  On write failure the drained
batch is re-merged into the buffer, prepended before the observations
recorded during the flush, preserving its order.  Returns the resulting
buffer and whether the write succeeded. -/
def flushCycle (buf : TelemetryBuffer) (during : List Observation)
    (storeOk : Bool) : TelemetryBuffer × Bool :=
  let (batch, emptied) := drain buf
  let buf' := during.foldl record emptied
  if batch.isEmpty then (buf', true)
  else if storeOk then (buf', true)
  else (batch ++ buf', false)

/-! ## Aggregator (spec §4.5) -/

/-- The calendar day a timestamp falls in. -/
def obsDay (o : Observation) : Nat := o.timestamp / msPerDay

/-- One bucket of the daily series returned by the analytics summary. -/
structure DailyBucket where
  day : Nat
  totalRequests : Nat
  successfulRequests : Nat
  failedRequests : Nat
deriving Repr, DecidableEq

/-- The parts of the `GET /admin/analytics/summary` payload this
development reasons about: the overall total for the queried window and
the daily series. -/
structure SummaryOut where
  totalRequests : Nat
  daily : List DailyBucket
deriving Repr, DecidableEq

/-- Modelled from the spec: the day-bucketed series of
`getAnalyticsSummary` (`middleware/analyticsTracker.js`, absent from
src), spec §4.5: one bucket per day from `base` through
`base + days - 1`; buckets with zero observations are present with zero
counts. -/
def dailySeries (persisted : List Observation) (base days : Nat) :
    List DailyBucket :=
  (List.range days).map (fun i =>
    let dayObs := persisted.filter (fun o => obsDay o = base + i)
    { day := base + i,
      totalRequests := dayObs.length,
      successfulRequests := (dayObs.filter (fun o => obsSuccess o)).length,
      failedRequests := (dayObs.filter (fun o => !obsSuccess o)).length })

/-- Modelled from the spec: `getAnalyticsSummary({days})`
(`middleware/analyticsTracker.js`, absent from src), spec §4.5, serving
`GET /admin/analytics/summary` (`server.js` lines 726–743): queries the
persisted observations of the last `days` calendar days (the window
ending on the current day) and reports the window total together with a
series of exactly `days` daily buckets. -/
def getAnalyticsSummary (persisted : List Observation) (now days : Nat) :
    SummaryOut :=
  let base := now / msPerDay + 1 - days
  let windowObs := persisted.filter
    (fun o => base ≤ obsDay o ∧ obsDay o < base + days)
  { totalRequests := windowObs.length,
    daily := dailySeries persisted base days }

/-! ## Admin authentication middleware (`checkAdminAuth`, in src) -/

/-- A decoded Firebase ID token as used by `checkAdminAuth`: subject id,
email, expiry (seconds), the `admin` custom claim, and the profile
fields copied into `req.user`. -/
structure DecodedToken where
  uid : String
  email : Option String
  exp : Nat
  admin : Bool
  email_verified : Bool
  name : Option String
  picture : Option String
deriving Repr, DecidableEq

/-- One document of the `admins` collection, as written by the
first-user auto-provisioning branch of `checkAdminAuth`. -/
structure AdminDoc where
  email : Option String
  uid : String
  createdAt : Nat
  role : String
  autoCreated : Bool
deriving Repr, DecidableEq

/-- The `req.user` object attached by `checkAdminAuth` on success. -/
structure ReqUser where
  uid : String
  email : Option String
  emailVerified : Bool
  name : Option String
  picture : Option String
  isAdmin : Bool
deriving Repr, DecidableEq

/-- Outcome of the admin-auth middleware: either an early response with
an HTTP status and error label, or `next()` with the attached user. -/
inductive AdminAuthOutcome where
  | reject (status : Nat) (error : String)
  | proceed (user : ReqUser)
deriving Repr, DecidableEq

/-- The `req.user` built by `checkAdminAuth` from a decoded token. -/
def mkReqUser (tk : DecodedToken) : ReqUser :=
  { uid := tk.uid,
    email := tk.email,
    emailVerified := tk.email_verified,
    name := tk.name,
    picture := tk.picture,
    isAdmin := true }

/-- The `super_admin` document auto-created for the first authenticated
user (`checkAdminAuth` lines 72–78). -/
def autoAdminDoc (tk : DecodedToken) (now : Nat) : AdminDoc :=
  { email := tk.email,
    uid := tk.uid,
    createdAt := now,
    role := "super_admin",
    autoCreated := true }

/-- The `checkAdminAuth` middleware (`middleware/checkAdminAuth.js`,
present in src).  `verify` is the external
`auth.verifyIdToken` collaborator, returning the decoded token or a
Firebase error code; `authHeader` is the `Authorization` header;
`admins` is the `admins` collection keyed by uid; `now` is the current
time in seconds.  Returns the outcome together with the possibly
updated `admins` collection. -/
def checkAdminAuth (verify : String → Except String DecodedToken)
    (authHeader : Option String) (admins : List (String × AdminDoc))
    (now : Nat) : AdminAuthOutcome × List (String × AdminDoc) :=
  match authHeader with
  | none => (.reject 401 "Unauthorized", admins)
  | some h =>
    if h.take 7 ≠ "Bearer " then (.reject 401 "Unauthorized", admins)
    else
      let idToken := h.drop 7
      if idToken = "" then (.reject 401 "Unauthorized", admins)
      else
        match verify idToken with
        | .error code =>
          if code = "auth/id-token-expired" ∨ code = "auth/id-token-revoked" ∨
             code = "auth/argument-error" ∨ code = "auth/invalid-id-token" then
            (.reject 401 "Unauthorized", admins)
          else
            (.reject 500 "Internal Server Error", admins)
        | .ok tk =>
          if tk.exp < now then (.reject 401 "Unauthorized", admins)
          else
            let adminDocExists := (admins.lookup tk.uid).isSome
            let isAdmin := adminDocExists || tk.admin
            if isAdmin then
              (.proceed (mkReqUser tk), admins)
            else if admins.isEmpty then
              (.proceed (mkReqUser tk),
               admins ++ [(tk.uid, autoAdminDoc tk now)])
            else
              (.reject 403 "Forbidden", admins)


/-! ## Helper lemmas -/

lemma nodup_iff_no_dup_filter (l : List String) :
    l.Nodup ↔ ∀ p ∈ l, ¬ 1 < l.count p := by
  rw [List.nodup_iff_count_le_one]
  constructor
  · intro h p _
    exact not_lt.mpr (h p)
  · intro h a
    by_cases ha : a ∈ l
    · exact not_lt.mp (h a ha)
    · simp [List.count_eq_zero_of_not_mem ha]

lemma validate_accepts_iff (requested : List String) :
    (validatePermissions requested).isValid = true ↔
      requested ≠ [] ∧ (∀ p ∈ requested, p ∈ available_permissions) ∧
        (requested.map normalizeCapability).Nodup := by
  unfold validatePermissions
  by_cases hemp : requested.isEmpty
  · simp only [hemp, if_true]
    rw [List.isEmpty_iff] at hemp
    simp [hemp]
  · rw [Bool.not_eq_true] at hemp
    simp only [hemp, Bool.false_eq_true, if_false]
    by_cases hinv : (requested.filter (fun p => !available_permissions.contains p)).isEmpty
    · simp only [hinv, Bool.not_true, Bool.false_eq_true, if_false]
      rw [List.isEmpty_iff, List.filter_eq_nil_iff] at hinv
      by_cases hdup : ((requested.map normalizeCapability).filter
          (fun p => decide (1 < (requested.map normalizeCapability).count p))).isEmpty
      · simp only [hdup, Bool.not_true, Bool.false_eq_true, if_false]
        rw [List.isEmpty_iff, List.filter_eq_nil_iff] at hdup
        simp only [List.isEmpty_eq_false] at hemp
        constructor
        · intro _
          refine ⟨hemp, ?_, ?_⟩
          · intro p hp
            have := hinv p hp
            simpa using this
          · rw [nodup_iff_no_dup_filter]
            intro p hp
            have := hdup p hp
            simpa using this
        · intro _
          trivial
      · rw [Bool.not_eq_true] at hdup
        simp only [hdup, Bool.not_false, if_true]
        rw [List.isEmpty_eq_false] at hdup
        simp only [Bool.false_eq_true, false_iff]
        rintro ⟨-, -, h3⟩
        rw [nodup_iff_no_dup_filter] at h3
        apply hdup
        rw [List.filter_eq_nil_iff]
        intro a ha
        simpa using h3 a ha
    · rw [Bool.not_eq_true] at hinv
      simp only [hinv, Bool.not_false, if_true]
      rw [List.isEmpty_eq_false] at hinv
      simp only [Bool.false_eq_true, false_iff]
      rintro ⟨-, h2, -⟩
      apply hinv
      rw [List.filter_eq_nil_iff]
      intro a ha
      simp [h2 a ha]

/-- The Key Validator rejects a found record that is inactive or expired
with `Unauthorized`, regardless of the required capability. -/
lemma validator_rejects_inactive_or_expired (required : Option String)
    (k : String) (store : List KeyRecord) (now : Nat) (r : KeyRecord)
    (hfind : store.find? (fun x => x.key == k) = some r)
    (hbad : r.isActive = false ∨ keyExpired r now = true) :
    checkApiKeyPermissions required (some k) store now =
      .error (.Unauthorized "key inactive or expired") := by
  have hcond : (!r.isActive || keyExpired r now) = true := by
    rcases hbad with h | h <;> simp [h]
  simp [checkApiKeyPermissions, hfind, hcond]

/-- Folding `record` over a list of observations appends them in
order. -/
lemma foldl_record_eq_append (obs : List Observation) (buf : TelemetryBuffer) :
    obs.foldl record buf = buf ++ obs := by
  induction obs generalizing buf with
  | nil => simp
  | cons o rest ih =>
    simp [record, ih]

/-- Updating the value stored at `id` in an association list is visible
to `lookup`. -/
lemma lookup_map_update (l : List (String × KeyRecord)) (id : String)
    (r : KeyRecord) (f : KeyRecord → KeyRecord)
    (h : l.lookup id = some r) :
    (l.map (fun p => if p.1 = id then (p.1, f p.2) else p)).lookup id
      = some (f r) := by
  induction l with
  | nil => simp at h
  | cons p rest ih =>
    obtain ⟨pk, pv⟩ := p
    by_cases hp : pk = id
    · subst hp
      rw [List.lookup_cons_self] at h
      cases h
      simp
    · rw [List.lookup_cons] at h
      have hbeq : (id == pk) = false := by
        simp [Ne.symm hp]
      rw [hbeq] at h
      simp only [List.map_cons, if_neg hp]
      rw [List.lookup_cons, hbeq]
      exact ih h

/-- Adding the bucket of day `base + days` to the window
`[base, base + days)` yields the window `[base, base + days + 1)`. -/
lemma filter_day_window_succ (persisted : List Observation) (base days : Nat) :
    (persisted.filter (fun o => base ≤ obsDay o ∧ obsDay o < base + days)).length
      + (persisted.filter (fun o => obsDay o = base + days)).length
      = (persisted.filter
          (fun o => base ≤ obsDay o ∧ obsDay o < base + (days + 1))).length := by
  induction persisted with
  | nil => simp
  | cons o rest ih =>
    by_cases h1 : base ≤ obsDay o ∧ obsDay o < base + days
    · have h2 : ¬ obsDay o = base + days := by omega
      have h3 : base ≤ obsDay o ∧ obsDay o < base + (days + 1) := by omega
      simp [List.filter_cons, h1, h2, h3] at ih ⊢
      omega
    · by_cases h2 : obsDay o = base + days
      · have h3 : base ≤ obsDay o ∧ obsDay o < base + (days + 1) := by omega
        simp [List.filter_cons, h1, h2, h3] at ih ⊢
        omega
      · have h3 : ¬ (base ≤ obsDay o ∧ obsDay o < base + (days + 1)) := by omega
        simp [List.filter_cons, h1, h2, h3] at ih ⊢
        omega

/-- The per-day counts over `days` consecutive days sum to the count of
the whole window. -/
lemma range_map_daycount_sum (persisted : List Observation) (base days : Nat) :
    ((List.range days).map
      (fun i => (persisted.filter (fun o => obsDay o = base + i)).length)).sum
    = (persisted.filter
        (fun o => base ≤ obsDay o ∧ obsDay o < base + days)).length := by
  induction days with
  | zero =>
    simp only [List.range_zero, List.map_nil, List.sum_nil]
    have hempty : persisted.filter
        (fun o => base ≤ obsDay o ∧ obsDay o < base + 0) = [] := by
      rw [List.filter_eq_nil_iff]
      intro o _
      simp only [decide_eq_true_eq, not_and]
      omega
    rw [hempty]
    rfl
  | succ d ih =>
    rw [List.range_succ, List.map_append, List.sum_append]
    simp only [List.map_cons, List.map_nil, List.sum_cons, List.sum_nil]
    rw [ih, Nat.add_zero]
    exact filter_day_window_succ persisted base d

/-- A filter and its complement split the length of a list. -/
lemma length_filter_split (l : List Observation) (p : Observation → Bool) :
    l.length = (l.filter p).length + (l.filter (fun o => !p o)).length := by
  induction l with
  | nil => simp
  | cons o rest ih =>
    by_cases h : p o = true <;>
      simp only [List.filter_cons, h, Bool.not_true, Bool.not_false, if_true,
        if_false, List.length_cons, Bool.true_eq_false, Bool.false_eq_true] <;>
      omega

/-! ## Claim theorems -/

/-- C1: the routes that invoke the guard with no explicit capability
argument (`GET /api/feed`, `GET /api/media/:id`, `GET /api/settings`)
behave as requiring the baseline "read" capability, which is present in
every preset; the Key Validator still denies access whenever no API key
is presented or the presented key's granted capability set is empty, so
such a route is never an implicit authorization bypass. -/
theorem noArgGuard_denies :
    baselineCapability ∈ read_only_preset ∧
    baselineCapability ∈ full_access_preset ∧
    (∀ (store : List KeyRecord) (now : Nat),
      isDenied (checkApiKeyPermissions none none store now) = true) ∧
    (∀ (k : String) (store : List KeyRecord) (now : Nat) (r : KeyRecord),
      store.find? (fun x => x.key == k) = some r → r.permissions = [] →
      isDenied (checkApiKeyPermissions none (some k) store now) = true) := by
  refine ⟨by decide, by decide, ?_, ?_⟩
  · intro store now
    rfl
  · intro k store now r hfind hperm
    by_cases hact : (!r.isActive || keyExpired r now) = true
    · simp [checkApiKeyPermissions, hfind, hact, isDenied]
    · simp [checkApiKeyPermissions, hfind, hact, hperm, isDenied]

/-- Witness for C1: a concrete active key with an empty capability set
is denied on a no-argument guard. -/
theorem noArgGuard_denies_witness :
    isDenied (checkApiKeyPermissions none (some "k")
      [{ key := "k", name := "n", description := "", accessType := "custom",
         permissions := [], isActive := true, createdBy := "u",
         createdByEmail := "e", createdAt := 0, expiresAt := none,
         lastUsedAt := none, usageCount := 0 }] 0) = true :=
  noArgGuard_denies.2.2.2 "k" _ 0
    ⟨"k", "n", "", "custom", [], true, "u", "e", 0, none, none, 0, none, none⟩
    (by decide) rfl

/-- C2: a presented key whose record exists but is inactive, or whose
expiry timestamp is ≤ now, fails with Unauthorized ("key inactive or
expired") — even when its capability set contains the required
capability; a past expiry overrides the active flag. -/
theorem inactiveOrExpired_unauthorized (required : Option String)
    (k : String) (store : List KeyRecord) (now : Nat) (r : KeyRecord)
    (hfind : store.find? (fun x => x.key == k) = some r)
    (hbad : r.isActive = false ∨ keyExpired r now = true) :
    checkApiKeyPermissions required (some k) store now =
      .error (.Unauthorized "key inactive or expired") :=
  validator_rejects_inactive_or_expired required k store now r hfind hbad

/-- Witness for C2: an active key, expired in the past, holding exactly
the required capability, is still rejected as Unauthorized. -/
theorem inactiveOrExpired_unauthorized_witness :
    checkApiKeyPermissions (some "read:media") (some "k")
      [{ key := "k", name := "n", description := "", accessType := "custom",
         permissions := ["read:media"], isActive := true, createdBy := "u",
         createdByEmail := "e", createdAt := 0, expiresAt := some 5,
         lastUsedAt := none, usageCount := 0 }] 10 =
      .error (.Unauthorized "key inactive or expired") :=
  inactiveOrExpired_unauthorized (some "read:media") "k" _ 10
    ⟨"k", "n", "", "custom", ["read:media"], true, "u", "e", 0, some 5,
     none, 0, none, none⟩
    (by decide) (Or.inr (by decide))

/-- C3: when the durable-store write fails, the drained batch is
re-merged into the buffer, prepended before the observations recorded
during the flush and preserving its order; no observation is lost and
none is duplicated. -/
theorem flushFailure_requeues (buf : TelemetryBuffer)
    (during : List Observation) :
    (flushCycle buf during false).1 = buf ++ during ∧
    (flushCycle buf during false).1.length = buf.length + during.length ∧
    ∀ o : Observation,
      (flushCycle buf during false).1.count o
        = buf.count o + during.count o := by
  have hmain : (flushCycle buf during false).1 = buf ++ during := by
    by_cases hb : buf.isEmpty
    · rw [List.isEmpty_iff] at hb
      subst hb
      simp [flushCycle, drain, foldl_record_eq_append]
    · simp only [flushCycle, drain, Bool.false_eq_true, if_false, hb]
      simp [hb, foldl_record_eq_append]
  refine ⟨hmain, ?_, ?_⟩
  · rw [hmain]
    simp
  · intro o
    rw [hmain]
    simp [List.count_append]

/-- C4: every observation recorded before a drain appears in the drained
batch and none remains in the buffer; the drain resets the buffer to
empty, and observations recorded afterwards live only in the new buffer,
so each recorded observation ends up in exactly one of the two places. -/
theorem recordDrain_partition (pre post : List Observation) :
    (drain (pre.foldl record [])).1 = pre ∧
    (drain (pre.foldl record [])).2 = [] ∧
    post.foldl record (drain (pre.foldl record [])).2 = post ∧
    ∀ o : Observation,
      (drain (pre.foldl record [])).1.count o
        + (post.foldl record (drain (pre.foldl record [])).2).count o
      = (pre ++ post).count o := by
  refine ⟨?_, rfl, ?_, ?_⟩
  · simp [drain, foldl_record_eq_append]
  · simp [drain, foldl_record_eq_append]
  · intro o
    simp [drain, foldl_record_eq_append, List.count_append]

/-- C7: `validatePermissions` (a pure function) accepts exactly when the
requested list is non-empty, drawn from the closed vocabulary, and free
of duplicates after normalization; every rejected input reports the
offending element(s): every out-of-vocabulary element is reported, on a
duplicate-only rejection every duplicated normalized element is
reported, and everything reported is genuinely offending (outside the
vocabulary or duplicated). -/
theorem validatePermissions_correct (requested : List String) :
    ((validatePermissions requested).isValid = true ↔
      requested ≠ [] ∧ (∀ p ∈ requested, p ∈ available_permissions) ∧
        (requested.map normalizeCapability).Nodup) ∧
    (∀ p ∈ requested, p ∉ available_permissions →
      p ∈ (validatePermissions requested).offending) ∧
    (∀ p ∈ (validatePermissions requested).offending,
      p ∉ available_permissions ∨
        1 < (requested.map normalizeCapability).count p) ∧
    ((∀ p ∈ requested, p ∈ available_permissions) →
      ∀ q ∈ requested.map normalizeCapability,
        1 < (requested.map normalizeCapability).count q →
        q ∈ (validatePermissions requested).offending) := by
  refine ⟨validate_accepts_iff requested, ?_, ?_, ?_⟩
  · intro p hp hnv
    unfold validatePermissions
    have hne : requested.isEmpty = false := by
      rw [List.isEmpty_eq_false]
      rintro rfl
      simp at hp
    simp only [hne, Bool.false_eq_true, if_false]
    have hinv : (requested.filter
        (fun q => !available_permissions.contains q)).isEmpty = false := by
      rw [List.isEmpty_eq_false]
      intro hnil
      rw [List.filter_eq_nil_iff] at hnil
      exact (hnil p hp) (by simp [hnv])
    simp only [hinv, Bool.not_false, if_true]
    simp [List.mem_filter, hp, hnv]
  · intro p hp
    unfold validatePermissions at hp
    by_cases hne : requested.isEmpty
    · simp [hne] at hp
    · rw [Bool.not_eq_true] at hne
      simp only [hne, Bool.false_eq_true, if_false] at hp
      by_cases hinv : (requested.filter
          (fun q => !available_permissions.contains q)).isEmpty
      · simp only [hinv, Bool.not_true, Bool.false_eq_true, if_false] at hp
        by_cases hdup : ((requested.map normalizeCapability).filter
            (fun q => decide (1 <
              (requested.map normalizeCapability).count q))).isEmpty
        · simp only [hdup, Bool.not_true, Bool.false_eq_true, if_false] at hp
          simp at hp
        · rw [Bool.not_eq_true] at hdup
          simp only [hdup, Bool.not_false, if_true] at hp
          rw [List.mem_dedup, List.mem_filter] at hp
          right
          simpa using hp.2
      · rw [Bool.not_eq_true] at hinv
        simp only [hinv, Bool.not_false, if_true] at hp
        rw [List.mem_filter] at hp
        left
        simpa using hp.2

  · intro hvocab q hq hcount
    unfold validatePermissions
    have hne : requested.isEmpty = false := by
      rw [List.isEmpty_eq_false]
      rintro rfl
      simp at hq
    simp only [hne, Bool.false_eq_true, if_false]
    have hinv : (requested.filter
        (fun p => !available_permissions.contains p)).isEmpty = true := by
      rw [List.isEmpty_iff, List.filter_eq_nil_iff]
      intro p hp
      simp [hvocab p hp]
    simp only [hinv, Bool.not_true, Bool.false_eq_true, if_false]
    have hdup : ((requested.map normalizeCapability).filter
        (fun p => decide (1 <
          (requested.map normalizeCapability).count p))).isEmpty = false := by
      rw [List.isEmpty_eq_false]
      intro hnil
      rw [List.filter_eq_nil_iff] at hnil
      exact (hnil q hq) (by simpa using hcount)
    simp only [hdup, Bool.not_false, if_true]
    rw [List.mem_dedup, List.mem_filter]
    exact ⟨hq, by simpa using hcount⟩

/-- Witness for C7: a concrete out-of-vocabulary element and a concrete
duplicated in-vocabulary element are both reported among the offending
elements. -/
theorem validatePermissions_correct_witness :
    "bogus" ∈ (validatePermissions ["read:media", "bogus"]).offending ∧
    "read:media" ∈ (validatePermissions
      ["read:media", "read:media"]).offending :=
  ⟨(validatePermissions_correct ["read:media", "bogus"]).2.1 "bogus"
      (by decide) (by decide),
   (validatePermissions_correct ["read:media", "read:media"]).2.2.2
      (by decide) "read:media" (by decide) (by decide)⟩

/-- C5: every successful `generateKey` call persists a record with
`isActive = true`, usage counter `0`, last-used `null`, a non-empty
granted capability set drawn from the valid vocabulary, creation time
`now`, and an expiry of `now` plus `expiresInDays` days when that
argument is given and positive, `null` otherwise. -/
theorem generateKey_record_fields (name accessType : String)
    (customPermissions : List String) (expiresInDays : Option Int)
    (description uid email fresh : String) (now : Nat) (r : KeyRecord)
    (h : generateKey name accessType customPermissions expiresInDays
          description uid email fresh now = .ok r) :
    r.isActive = true ∧ r.usageCount = 0 ∧ r.lastUsedAt = none ∧
    r.createdAt = now ∧ r.permissions ≠ [] ∧
    (∀ p ∈ r.permissions, p ∈ available_permissions) ∧
    (∀ d : Int, expiresInDays = some d → 0 < d →
      r.expiresAt = some (now + d.toNat * msPerDay)) ∧
    ((expiresInDays = none ∨ ∃ d : Int, expiresInDays = some d ∧ ¬ 0 < d) →
      r.expiresAt = none) := by
  unfold generateKey at h
  by_cases hn : name = ""
  · simp [hn] at h
  · rw [if_neg hn] at h
    by_cases hat : validAccessTypes.contains accessType
    · rw [if_neg (by rw [hat]; decide)] at h
      by_cases hc : accessType = "custom"
      · rw [if_pos hc] at h
        by_cases hv : (validatePermissions customPermissions).isValid
        · rw [if_pos hv] at h
          obtain ⟨hnonempty, hsub, -⟩ := (validate_accepts_iff _).mp hv
          simp only [Except.ok.injEq] at h
          subst h
          refine ⟨rfl, rfl, rfl, rfl, hnonempty, hsub, ?_, ?_⟩
          · intro d hd hdpos
            subst hd
            simp [hdpos]
          · rintro (hnone | ⟨d, hd, hdneg⟩)
            · subst hnone
              rfl
            · subst hd
              simp [hdneg]
        · rw [if_neg hv] at h
          simp at h
      · rw [if_neg hc] at h
        simp only [Except.ok.injEq] at h
        subst h
        have hmem : accessType ∈ validAccessTypes :=
          List.mem_of_elem_eq_true hat
        have hperm : getPermissionsByAccessType accessType = read_only_preset ∨
            getPermissionsByAccessType accessType = full_access_preset := by
          simp only [validAccessTypes, List.mem_cons,
            List.not_mem_nil, or_false] at hmem
          rcases hmem with h1 | h1 | h1
          · left
            simp [getPermissionsByAccessType, h1]
          · right
            simp [getPermissionsByAccessType, h1]
          · exact absurd h1 hc
        refine ⟨rfl, rfl, rfl, rfl, ?_, ?_, ?_, ?_⟩
        · show getPermissionsByAccessType accessType ≠ []
          rcases hperm with h1 | h1 <;> simp [h1, read_only_preset,
            full_access_preset, available_permissions]
        · intro p hp
          have hp' : p ∈ getPermissionsByAccessType accessType := hp
          rcases hperm with h1 | h1 <;> rw [h1] at hp'
          · simp only [read_only_preset, List.mem_cons,
              List.not_mem_nil, or_false] at hp'
            rcases hp' with rfl | rfl <;> decide
          · exact hp'
        · intro d hd hdpos
          subst hd
          simp [hdpos]
        · rintro (hnone | ⟨d, hd, hdneg⟩)
          · subst hnone
            rfl
          · subst hd
            simp [hdneg]
    · rw [Bool.not_eq_true] at hat
      rw [if_pos (by rw [hat]; decide)] at h
      simp at h

/-- Witness for C5: a concrete successful `read_only` key generation
with a 7-day expiry produces an active record. -/
theorem generateKey_record_fields_witness :
    (⟨"mc_f", "k", "d", "read_only", read_only_preset, true, "u", "e", 0,
      some ((7 : Int).toNat * msPerDay), none, 0, none, none⟩ :
        KeyRecord).isActive = true :=
  (generateKey_record_fields "k" "read_only" [] (some 7) "d" "u" "e" "f" 0
    _ rfl).1

/-- C6: soft-revoking an existing key leaves it resolvable by id with
`isActive = false` and every other identifying field unchanged, and any
subsequent validation of that key fails with Unauthorized; revoking a
missing id reports Not Found and changes no record. -/
theorem revokeKey_soft (apiKeys : List (String × KeyRecord)) (id : String)
    (now : Nat) (uid : String) :
    (∀ r : KeyRecord, apiKeys.lookup id = some r →
      (revokeKey apiKeys id false now uid).1 = .deactivated ∧
      (revokeKey apiKeys id false now uid).2.lookup id
        = some (deactivateRecord now uid r) ∧
      (deactivateRecord now uid r).isActive = false ∧
      (deactivateRecord now uid r).key = r.key ∧
      (deactivateRecord now uid r).name = r.name ∧
      (deactivateRecord now uid r).description = r.description ∧
      (deactivateRecord now uid r).accessType = r.accessType ∧
      (deactivateRecord now uid r).permissions = r.permissions ∧
      (deactivateRecord now uid r).createdAt = r.createdAt ∧
      (deactivateRecord now uid r).expiresAt = r.expiresAt ∧
      (deactivateRecord now uid r).lastUsedAt = r.lastUsedAt ∧
      (deactivateRecord now uid r).usageCount = r.usageCount ∧
      (∀ (required : Option String) (store : List KeyRecord) (now' : Nat),
        store.find? (fun x => x.key == r.key)
            = some (deactivateRecord now uid r) →
        checkApiKeyPermissions required (some r.key) store now' =
          .error (.Unauthorized "key inactive or expired"))) ∧
    (apiKeys.lookup id = none →
      revokeKey apiKeys id false now uid = (.notFound, apiKeys)) := by
  constructor
  · intro r hr
    refine ⟨?_, ?_, rfl, rfl, rfl, rfl, rfl, rfl, rfl, rfl, rfl, rfl, ?_⟩
    · simp [revokeKey, hr]
    · simp only [revokeKey, hr, Bool.false_eq_true, if_false]
      exact lookup_map_update apiKeys id r _ hr
    · intro required store now' hfind
      exact validator_rejects_inactive_or_expired required r.key store now'
        _ hfind (Or.inl rfl)
  · intro hnone
    simp [revokeKey, hnone]

/-- Witness for C6: soft-revoking a concrete stored key reports
deactivation. -/
theorem revokeKey_soft_witness :
    (revokeKey [("id1",
      (⟨"k", "n", "", "custom", ["read:media"], true, "u", "e", 0, none,
        none, 0, none, none⟩ : KeyRecord))] "id1" false 5 "adm").1
      = .deactivated :=
  ((revokeKey_soft _ "id1" 5 "adm").1
    ⟨"k", "n", "", "custom", ["read:media"], true, "u", "e", 0, none,
      none, 0, none, none⟩ (by decide)).1

/-- C8: the analytics summary for a `days`-day window reports exactly
`days` daily buckets (zero-count days included), the per-bucket totals
sum to the overall total for the window, and each bucket's total splits
into its successful and failed counts. -/
theorem summary_daily_buckets (persisted : List Observation)
    (now days : Nat) :
    (getAnalyticsSummary persisted now days).daily.length = days ∧
    (((getAnalyticsSummary persisted now days).daily.map
        (fun b => b.totalRequests)).sum
      = (getAnalyticsSummary persisted now days).totalRequests) ∧
    (∀ b ∈ (getAnalyticsSummary persisted now days).daily,
      b.totalRequests = b.successfulRequests + b.failedRequests) := by
  refine ⟨?_, ?_, ?_⟩
  · simp [getAnalyticsSummary, dailySeries]
  · simp only [getAnalyticsSummary, dailySeries]
    rw [List.map_map]
    exact range_map_daycount_sum persisted (now / msPerDay + 1 - days) days
  · intro b hb
    simp only [getAnalyticsSummary, dailySeries, List.mem_map] at hb
    obtain ⟨i, hi, hb⟩ := hb
    subst hb
    exact length_filter_split _ obsSuccess

/-- C9: a request with a syntactically valid, unexpired bearer token for
a user with neither an admins-collection record nor an admin custom
claim is auto-provisioned as `super_admin` and allowed through when the
admins collection is empty, and rejected with 403 Forbidden (no document
created) when the collection is non-empty. -/
theorem firstAdmin_autoprovision (verify : String → Except String DecodedToken)
    (h tok : String) (tk : DecodedToken)
    (admins : List (String × AdminDoc)) (now : Nat)
    (hpre : h.take 7 = "Bearer ") (htok : h.drop 7 = tok) (hne : tok ≠ "")
    (hver : verify tok = .ok tk) (hexp : now ≤ tk.exp)
    (hdoc : admins.lookup tk.uid = none) (hclaim : tk.admin = false) :
    (admins = [] →
      checkAdminAuth verify (some h) admins now =
        (.proceed (mkReqUser tk), [(tk.uid, autoAdminDoc tk now)])) ∧
    (admins ≠ [] →
      checkAdminAuth verify (some h) admins now =
        (.reject 403 "Forbidden", admins)) := by
  have hnotlt : ¬ tk.exp < now := not_lt.mpr hexp
  constructor
  · intro hempty
    subst hempty
    simp [checkAdminAuth, hpre, htok, hne, hver, hnotlt, hclaim]
  · intro hnonempty
    have hiseq : admins.isEmpty = false := by
      rw [List.isEmpty_eq_false]
      exact hnonempty
    simp [checkAdminAuth, hpre, htok, hne, hver, hnotlt, hclaim, hdoc, hiseq]

/-- Witness for C9: a concrete first authenticated user on an empty
admins collection is auto-provisioned and allowed through. -/
theorem firstAdmin_autoprovision_witness :
    checkAdminAuth
      (fun t => if t = "t" then
        .ok ⟨"u1", some "a@b.c", 9, false, true, none, none⟩
      else .error "auth/argument-error")
      (some "Bearer t") [] 0 =
      (.proceed (mkReqUser ⟨"u1", some "a@b.c", 9, false, true, none, none⟩),
       [("u1", autoAdminDoc ⟨"u1", some "a@b.c", 9, false, true, none, none⟩ 0)]) :=
  (firstAdmin_autoprovision _ "Bearer t" "t"
    ⟨"u1", some "a@b.c", 9, false, true, none, none⟩ [] 0
    (by decide) (by decide) (by decide) rfl (by decide) rfl rfl).1 rfl

/-- C10: the key-listing response masks the key — the only key-derived
field of an entry is `keyPreview`, the constant prefix `"mc_****"` plus
the key's last 8 characters — so two records that agree on their last 8
key characters and on all non-key fields produce identical list
entries. -/
theorem apiKeyList_masks_key (id : String) (r r' : KeyRecord)
    (hsuffix : lastChars 8 r.key = lastChars 8 r'.key)
    (hrest : ({ r with key := "" } : KeyRecord) = { r' with key := "" }) :
    toListEntry id r = toListEntry id r' ∧
    (toListEntry id r).keyPreview = "mc_****" ++ lastChars 8 r.key ∧
    listApiKeys [(id, r)] = [toListEntry id r] := by
  refine ⟨?_, rfl, rfl⟩
  obtain ⟨k1, n1, d1, a1, p1, i1, cb1, ce1, ca1, e1, l1, u1, da1, db1⟩ := r
  obtain ⟨k2, n2, d2, a2, p2, i2, cb2, ce2, ca2, e2, l2, u2, da2, db2⟩ := r'
  simp only [KeyRecord.mk.injEq, true_and] at hrest
  obtain ⟨rfl, rfl, rfl, rfl, rfl, rfl, rfl, rfl, rfl, rfl, rfl, rfl, rfl⟩ :=
    hrest
  have hs : lastChars 8 k1 = lastChars 8 k2 := hsuffix
  show KeyListEntry.mk id n1 d1 a1 p1 i1 ca1 e1 l1 u1
      ("mc_****" ++ lastChars 8 k1)
    = KeyListEntry.mk id n1 d1 a1 p1 i1 ca1 e1 l1 u1
      ("mc_****" ++ lastChars 8 k2)
  rw [hs]

/-- Witness for C10: two concrete records differing only in the masked
part of the key yield the same list entry. -/
theorem apiKeyList_masks_key_witness :
    toListEntry "i"
      ⟨"mc_AAAA12345678", "n", "", "custom", ["read:media"], true, "u",
        "e", 0, none, none, 0, none, none⟩ =
    toListEntry "i"
      ⟨"mc_BBBB12345678", "n", "", "custom", ["read:media"], true, "u",
        "e", 0, none, none, 0, none, none⟩ :=
  (apiKeyList_masks_key "i" _ _ (by decide) (by decide)).1

/-- Witness for C8: on a concrete one-day window with one successful
observation, the single bucket's total splits into successes and
failures. -/
theorem summary_daily_buckets_witness :
    (⟨0, 1, 1, 0⟩ : DailyBucket).totalRequests
      = (⟨0, 1, 1, 0⟩ : DailyBucket).successfulRequests
        + (⟨0, 1, 1, 0⟩ : DailyBucket).failedRequests :=
  (summary_daily_buckets [⟨0, "GET", "/api/feed", none, 200, 5⟩] 0 1).2.2
    ⟨0, 1, 1, 0⟩ (by decide)
